import Mathlib

/-!
Verification development for the Tendermint consensus core of the autonity
repository.  The definitions below are a shallow embedding, translated from
the Go source: the event-handling pipeline of `consensus/tendermint/core`
(Start, Stop, handleConsensusEvents, handleMsg, handleCheckedMsg) and the
backend methods of `consensus/tendermint/backend/backend.go` (Commit, Gossip,
AskSync).  Side effects of the Go code (storing into the backlog, calling
startRound, sending to peers, delivering blocks) are made explicit as values:
each embedded function returns the updated state together with a record of
the effectful calls it made, in program order.  Collaborator code that lives
outside the extracted sources (inner message handlers, payload decoding, the
p2p peer lookup) is either taken as a parameter or modelled from the spec,
as marked in the individual doc comments.
-/

namespace Autonity

/-- Validator / node addresses, abstracted to natural numbers. -/
abbrev Address := Nat

/-- Message code of a proposal, the tag `msgProposal` of the source. -/
def msgProposal : Nat := 0

/-- Message code of a prevote, the tag `msgPrevote` of the source. -/
def msgPrevote : Nat := 1

/-- Message code of a precommit, the tag `msgPrecommit` of the source. -/
def msgPrecommit : Nat := 2

/-- The error values of the core that the embedded functions distinguish,
mirroring the `err*` values used in `handleMsg` / `handleCheckedMsg`. -/
inductive CoreError where
  | errFutureHeightMessage
  | errFutureRoundMessage
  | errFutureStepMessage
  | errOldHeightMessage
  | errOldRoundMessage
  | errInvalidMessage
  | errFailedDecodeProposal
  | errFailedDecodeVote
  | errFailedDecodeMessage
  | errNotFromCommittee
  deriving DecidableEq

/-- A consensus message after envelope decoding.  `code` is the message tag;
`decodedRound` models the result of `msg.Decode` into a `Proposal` or `Vote`
value, keeping only the `Round` field the core reads (`none` models a decode
failure); `payload` models `msg.Payload()`, the serialized bytes re-gossiped
for backlogged messages (`none` models a serialization failure). -/
structure Message where
  code : Nat
  decodedRound : Option Int
  payload : Option (List Nat)
  deriving DecidableEq

/-- The effectful calls made while handling one checked message, in program
order: `stored` lists the `storeBacklog` calls (message with its sender) and
`started` lists the rounds passed to `startRound`. -/
structure Effects where
  stored : List (Message × Address)
  started : List Int
  deriving DecidableEq

/-- Effect record of a handler that made no effectful call. -/
def Effects.empty : Effects := ⟨[], []⟩

/-- Embedding of the `testBacklog` closure of `handleCheckedMsg`
(src/unnamed/part_000 lines 294-332).  Inputs: the Byzantine budget
`f = c.valSet.F()`, the counter map `frc = c.futureRoundsChange` (a total
function, absent keys reading 0 as for a Go map), the message, its sender and
the error returned by the inner handler.  Output: the updated counter map,
the effects, and the error returned to the caller. -/
def testBacklog (f : Nat) (frc : Int → Int) (msg : Message) (sender : Address)
    (err : Option CoreError) : (Int → Int) × Effects × Option CoreError :=
  if err = some CoreError.errFutureHeightMessage then
    (frc, ⟨[(msg, sender)], []⟩, err)
  else if err = some CoreError.errFutureRoundMessage then
    match msg.decodedRound with
    | none =>
      if msg.code = msgProposal then
        (frc, ⟨[(msg, sender)], []⟩, some CoreError.errFailedDecodeProposal)
      else
        (frc, ⟨[(msg, sender)], []⟩, some CoreError.errFailedDecodeVote)
    | some msgRound =>
      let frc' : Int → Int := fun r => if r = msgRound then frc msgRound + 1 else frc r
      if frc' msgRound > (f : Int) then
        (frc', ⟨[(msg, sender)], [msgRound]⟩, err)
      else
        (frc', ⟨[(msg, sender)], []⟩, err)
  else if err = some CoreError.errFutureStepMessage then
    (frc, ⟨[(msg, sender)], []⟩, err)
  else
    (frc, Effects.empty, err)

/-- Embedding of `handleCheckedMsg` (src/unnamed/part_000 lines 290-349).
The inner handlers `handleProposal`, `handlePrevote`, `handlePrecommit` are
not part of the extracted sources; the parameter `oracle` stands for the
result of the handler selected by the message code.  Messages whose code is
none of the three tags fall through to `errInvalidMessage` without invoking
any handler. -/
def handleCheckedMsg (f : Nat) (oracle : Message → Option CoreError)
    (frc : Int → Int) (msg : Message) (sender : Address) :
    (Int → Int) × Effects × Option CoreError :=
  if msg.code = msgProposal ∨ msg.code = msgPrevote ∨ msg.code = msgPrecommit then
    testBacklog f frc msg sender (oracle msg)
  else
    (frc, Effects.empty, some CoreError.errInvalidMessage)

/-- A raw wire payload as seen by `handleMsg`.  `decoded` models the outcome
of decoding and signature recovery (`none`: decode or signature check fails;
`some (msg, sender)`: the decoded message and its recovered sender), `bytes`
the raw bytes used for gossip. -/
structure Payload where
  decoded : Option (Message × Address)
  bytes : List Nat
  deriving DecidableEq

/-- Modelled from the spec: `Message.FromPayload` (not under src/) decodes
the payload and checks its signature; per spec section 4.1 a message is
accepted for processing only if it decodes successfully and its recovered
sender is a member of the validator set for the message height.  Failures
yield a decode error or a policy error and the message is dropped. -/
def fromPayload (valSet : List Address) (p : Payload) :
    Except CoreError (Message × Address) :=
  match p.decoded with
  | none => Except.error CoreError.errFailedDecodeMessage
  | some (msg, sender) =>
    if sender ∈ valSet then Except.ok (msg, sender)
    else Except.error CoreError.errNotFromCommittee

/-- Embedding of `handleMsg` (src/unnamed/part_000 lines 275-288): decode
and check the payload via `fromPayload`, return the error on failure, and
hand the checked message to `handleCheckedMsg` on success. -/
def handleMsg (f : Nat) (oracle : Message → Option CoreError)
    (valSet : List Address) (frc : Int → Int) (p : Payload) :
    (Int → Int) × Effects × Option CoreError :=
  match fromPayload valSet p with
  | Except.error e => (frc, Effects.empty, some e)
  | Except.ok (msg, sender) => handleCheckedMsg f oracle frc msg sender

/-- The four atomic start/stop guard flags of the core (`isStarted`,
`isStarting`, `isStopped`, `isStopping`), each a 0/1 word in the source. -/
structure Flags where
  isStarted : Bool
  isStarting : Bool
  isStopped : Bool
  isStopping : Bool
  deriving DecidableEq

/-- The effectful calls a successful `Start` makes, in program order.
`updateRoundState r h` records `c.currentRoundState.Update(r, h)`; the three
`go*` actions record the goroutines spawned. -/
inductive StartAction where
  | backendStart
  | subscribeEvents
  | updateRoundState (round : Nat) (height : Nat)
  | goHandleNewUnminedBlockEvent
  | goHandleConsensusEvents
  | goHandleUnhandledMsgs
  deriving DecidableEq

/-- Embedding of `core.Start` (src/unnamed/part_000 lines 34-71), with the
interleavings of the atomic flag reads sequentialized: the double-start guard
returns nil at once when `isStarted` is set or when the compare-and-swap on
`isStarting` fails because another start is in progress.  `backendStartErr`
is the result of `c.backend.Start`; `lastCommittedNumber` is the number of
the block returned by `c.backend.LastCommittedProposal()`.  The deferred
flag stores run on both exits of the body. -/
def Start (s : Flags) (backendStartErr : Option Nat) (lastCommittedNumber : Nat) :
    Flags × List StartAction × Option Nat :=
  if s.isStarted then (s, [], none)
  else if s.isStarting then (s, [], none)
  else
    let sAfter : Flags :=
      { isStarted := true, isStarting := false, isStopped := false,
        isStopping := s.isStopping }
    match backendStartErr with
    | some e => (sAfter, [StartAction.backendStart], some e)
    | none =>
      (sAfter,
       [StartAction.backendStart, StartAction.subscribeEvents,
        StartAction.updateRoundState 0 (lastCommittedNumber + 1),
        StartAction.goHandleNewUnminedBlockEvent,
        StartAction.goHandleConsensusEvents,
        StartAction.goHandleUnhandledMsgs], none)

/-- The effectful calls `Stop` makes, in program order. -/
inductive StopAction where
  | stopProposeTimer
  | stopPrevoteTimer
  | stopPrecommitTimer
  | cancelDriver
  | stopFutureProposalTimer
  | unsubscribeEvents
  | waitStopped
  | backendClose
  deriving DecidableEq

/-- Embedding of `core.Stop` (src/unnamed/part_000 lines 74-108): the
double-stop guard returns nil at once when `isStopped` is set or when the
compare-and-swap on `isStopping` fails; otherwise the three round timers are
stopped, the driver context cancelled, subscriptions dropped, the two event
goroutines awaited, and the backend closed, whose error (`closeErr`) is
returned. -/
def Stop (s : Flags) (closeErr : Option Nat) :
    Flags × List StopAction × Option Nat :=
  if s.isStopped then (s, [], none)
  else if s.isStopping then (s, [], none)
  else
    let sAfter : Flags :=
      { isStarted := false, isStarting := s.isStarting, isStopped := true,
        isStopping := false }
    (sAfter,
     [StopAction.stopProposeTimer, StopAction.stopPrevoteTimer,
      StopAction.stopPrecommitTimer, StopAction.cancelDriver,
      StopAction.stopFutureProposalTimer, StopAction.unsubscribeEvents,
      StopAction.waitStopped, StopAction.waitStopped,
      StopAction.backendClose], closeErr)

/-- The two event kinds of `handleConsensusEvents` that carry consensus
messages: a wire `events.MessageEvent` and an internal `backlogEvent`.  The
timeout and commit arms of the loop touch state outside the scope of the
claims and are not embedded. -/
inductive CoreEvent where
  | messageEvent (p : Payload)
  | backlogEvent (msg : Message) (src : Address)
  deriving DecidableEq

/-- An observable action of the consensus driver: a `startRound` call or a
`backend.Gossip` of some payload bytes. -/
inductive DriverAction where
  | startRound (r : Int)
  | gossip (bytes : List Nat)
  deriving DecidableEq

/-- Embedding of one iteration of the message arm of
`handleConsensusEvents` (src/unnamed/part_000 lines 167-199).  A wire
message is gossiped exactly when `handleMsg` returned nil; a backlogged
message is gossiped when `handleCheckedMsg` returned nil and `msg.Payload()`
succeeded.  `startRound` calls made inside the handlers appear in program
order before the gossip. -/
def consensusStep (f : Nat) (oracle : Message → Option CoreError)
    (valSet : List Address) (frc : Int → Int) :
    CoreEvent → (Int → Int) × List DriverAction
  | CoreEvent.messageEvent p =>
    let out := handleMsg f oracle valSet frc p
    (out.1, out.2.1.started.map DriverAction.startRound ++
      (if out.2.2 = none then [DriverAction.gossip p.bytes] else []))
  | CoreEvent.backlogEvent msg src =>
    let out := handleCheckedMsg f oracle frc msg src
    match out.2.2, msg.payload with
    | none, some pl =>
      (out.1, out.2.1.started.map DriverAction.startRound ++ [DriverAction.gossip pl])
    | _, _ => (out.1, out.2.1.started.map DriverAction.startRound)

/-- The event loop of `handleConsensusEvents`, folded over a queue of
events. -/
def driverLoop (f : Nat) (oracle : Message → Option CoreError)
    (valSet : List Address) : (Int → Int) → List CoreEvent → List DriverAction
  | _, [] => []
  | frc, e :: rest =>
    let out := consensusStep f oracle valSet frc e
    out.2 ++ driverLoop f oracle valSet out.1 rest

/-- Embedding of `handleConsensusEvents` (src/unnamed/part_000 lines
158-229): the driver first calls `startRound(common.Big0)` and then services
the event queue. -/
def handleConsensusEvents (f : Nat) (oracle : Message → Option CoreError)
    (valSet : List Address) (frc : Int → Int) (evs : List CoreEvent) :
    List DriverAction :=
  DriverAction.startRound 0 :: driverLoop f oracle valSet frc evs

/-- A block header, keeping only the committed-seals field the embedded
`Commit` writes. -/
structure Header where
  committedSeals : List (List Nat)
  deriving DecidableEq

/-- A block: its number, its hash and its header.  The hash is carried as a
field because the core identifies blocks by hash and, as the source's own
commentary in `Backend.Commit` assumes, the hash of a BFT block is not
changed by writing committed seals into the header. -/
structure Block where
  number : Nat
  hash : Nat
  header : Header
  deriving DecidableEq

/-- The part of the `Backend` state that `Commit` reads: the hash of the
node's own proposed block, whether the in-progress `Seal` result channel is
live (`!sb.isResultChanNil()`), and whether a broadcaster is registered. -/
structure BackendState where
  proposedBlockHash : Nat
  resultChanLive : Bool
  broadcasterPresent : Bool
  deriving DecidableEq

/-- A delivery made by `Commit`: to the `Seal` result channel
(`sb.sendResultChan`) or to the fetcher queue (`sb.broadcaster.Enqueue`). -/
inductive CommitDelivery where
  | toResultChan (b : Block)
  | toFetcher (b : Block)
  deriving DecidableEq

/-- Embedding of `Backend.Commit`
(src/consensus/tendermint/backend/backend.go lines 235-270).  `writeSeals`
is the result of `types.WriteCommittedSeals(h, seals)` on the block's header
(that function is not under src/, so its outcome is a parameter): on error
the error is returned and nothing is delivered; on success the block is
re-sealed with the returned header and delivered to the result channel when
its hash matches the proposed hash and the channel is live, else enqueued to
the fetcher when a broadcaster is registered.  `Commit` returns nil in every
case where the seals were written. -/
def Commit (sb : BackendState) (writeSeals : Except Nat Header) (block : Block) :
    List CommitDelivery × Option Nat :=
  match writeSeals with
  | Except.error e => ([], some e)
  | Except.ok h =>
    let block' : Block := { block with header := h }
    if sb.proposedBlockHash = block'.hash ∧ sb.resultChanLive = true then
      ([CommitDelivery.toResultChan block'], none)
    else if sb.broadcasterPresent = true then
      ([CommitDelivery.toFetcher block'], none)
    else
      ([], none)

/-- Modelled from the spec: the broadcaster's `FindPeers` (p2p layer, not
under src/) returns the currently connected peers among the requested target
addresses. -/
def findPeers (connected : List Address) (targets : List Address) :
    List Address :=
  connected.filter (fun a => decide (a ∈ targets))

/-- The message caches of the backend: `knownMessages` is the cache of
hashes of self-gossiped payloads; `recentMessages` maps a peer address to
the cache of payload hashes already sent to that peer.  The LRU caches are
modelled as unbounded (no eviction); an association-list entry nearer the
front shadows older entries for the same peer. -/
structure GossipCaches where
  knownMessages : List Nat
  recentMessages : List (Address × List Nat)
  deriving DecidableEq

/-- The per-peer recent-message cache for address `a` (empty when the peer
has no cache yet, as for a Go LRU miss). -/
def peerCache (rm : List (Address × List Nat)) (a : Address) : List Nat :=
  (List.lookup a rm).getD []

/-- The peer loop of `Backend.Gossip`: for each found peer in order, skip it
when its cache already holds the payload hash `h`, otherwise record `h` in
its cache and send.  Returns the updated per-peer caches and the addresses
sent to, in order. -/
def gossipLoop (h : Nat) : List Address → List (Address × List Nat) →
    List (Address × List Nat) × List Address
  | [], rm => (rm, [])
  | addr :: rest, rm =>
    if h ∈ peerCache rm addr then gossipLoop h rest rm
    else
      ((gossipLoop h rest ((addr, h :: peerCache rm addr) :: rm)).1,
       addr :: (gossipLoop h rest ((addr, h :: peerCache rm addr) :: rm)).2)

/-- Embedding of `Backend.Gossip`
(src/consensus/tendermint/backend/backend.go lines 200-232).  `h` is the
RLP hash of the payload (`types.RLPHash(payload)`).  The hash is first added
to the known-messages cache; the targets are the validator addresses other
than the node's own; when a broadcaster is registered and targets exist, the
connected peers among the targets are walked by `gossipLoop`. -/
def Gossip (self : Address) (valSet : List Address) (connected : List Address)
    (broadcasterPresent : Bool) (st : GossipCaches) (h : Nat) :
    GossipCaches × List Address :=
  let known' := h :: st.knownMessages
  let targets := valSet.filter (fun a => decide (¬ a = self))
  if broadcasterPresent = true ∧ targets ≠ [] then
    let out := gossipLoop h (findPeers connected targets) st.recentMessages
    (⟨known', out.1⟩, out.2)
  else
    (⟨known', st.recentMessages⟩, [])

/-- The peer loop of `Backend.AskSync`: send the sync request to the found
peers in order, stopping as soon as `count` reaches the quorum `q`. -/
def askSyncLoop (q : Nat) : Nat → List Address → List Address
  | _, [] => []
  | count, a :: rest =>
    if count = q then [] else a :: askSyncLoop q (count + 1) rest

/-- Embedding of `Backend.AskSync`
(src/consensus/tendermint/backend/backend.go lines 174-197).  `q` is the
value of `valSet.Quorum()` (the validator-set code is not under src/, so the
quorum is a parameter).  The targets are the validator addresses other than
the node's own; when a broadcaster is registered and targets exist, the sync
message is sent to at most `q` of the connected peers among the targets.
Returns the addresses sent to, in order. -/
def AskSync (self : Address) (valSet : List Address) (q : Nat)
    (connected : List Address) (broadcasterPresent : Bool) : List Address :=
  let targets := valSet.filter (fun a => decide (¬ a = self))
  if broadcasterPresent = true ∧ targets ≠ [] then
    askSyncLoop q 0 (findPeers connected targets)
  else
    []

/-! Helper lemmas about the peer caches and the two peer loops. -/

theorem peerCache_cons (addr : Address) (c : List Nat)
    (rm : List (Address × List Nat)) (a : Address) :
    peerCache ((addr, c) :: rm) a = if a = addr then c else peerCache rm a := by
  by_cases hx : a = addr
  · have hb : (a == addr) = true := beq_iff_eq.2 hx
    simp [peerCache, List.lookup, hb, hx]
  · have hb : (a == addr) = false := beq_eq_false_iff_ne.2 hx
    simp [peerCache, List.lookup, hb, hx]

theorem gossipLoop_sent_subset (h : Nat) (ps : List Address) :
    ∀ rm, ∀ a ∈ (gossipLoop h ps rm).2, a ∈ ps := by
  induction ps with
  | nil => intro rm a ha; simp [gossipLoop] at ha
  | cons addr rest ih =>
    intro rm a ha
    by_cases hc : h ∈ peerCache rm addr
    · rw [gossipLoop, if_pos hc] at ha
      exact List.mem_cons_of_mem _ (ih rm a ha)
    · rw [gossipLoop, if_neg hc] at ha
      rcases List.mem_cons.1 ha with he | htail
      · exact he ▸ List.mem_cons_self _ _
      · exact List.mem_cons_of_mem _ (ih _ a htail)

theorem gossipLoop_skip (h : Nat) (ps : List Address) :
    ∀ rm a, h ∈ peerCache rm a → a ∉ (gossipLoop h ps rm).2 := by
  induction ps with
  | nil => intro rm a _; simp [gossipLoop]
  | cons addr rest ih =>
    intro rm a hmem
    by_cases hc : h ∈ peerCache rm addr
    · rw [gossipLoop, if_pos hc]
      exact ih rm a hmem
    · rw [gossipLoop, if_neg hc]
      have hne : a ≠ addr := fun he => hc (he ▸ hmem)
      intro hin
      rcases List.mem_cons.1 hin with he | htail
      · exact hne he
      · refine ih _ a ?_ htail
        rw [peerCache_cons, if_neg hne]
        exact hmem

theorem gossipLoop_cache_mono (h : Nat) (ps : List Address) :
    ∀ rm a, h ∈ peerCache rm a → h ∈ peerCache (gossipLoop h ps rm).1 a := by
  induction ps with
  | nil => intro rm a hmem; simpa [gossipLoop] using hmem
  | cons addr rest ih =>
    intro rm a hmem
    by_cases hc : h ∈ peerCache rm addr
    · rw [gossipLoop, if_pos hc]
      exact ih rm a hmem
    · rw [gossipLoop, if_neg hc]
      refine ih _ a ?_
      rw [peerCache_cons]
      by_cases he : a = addr
      · rw [if_pos he]; exact List.mem_cons_self _ _
      · rw [if_neg he]; exact hmem

theorem gossipLoop_sent_cached (h : Nat) (ps : List Address) :
    ∀ rm a, a ∈ (gossipLoop h ps rm).2 → h ∈ peerCache (gossipLoop h ps rm).1 a := by
  induction ps with
  | nil => intro rm a ha; simp [gossipLoop] at ha
  | cons addr rest ih =>
    intro rm a ha
    by_cases hc : h ∈ peerCache rm addr
    · rw [gossipLoop, if_pos hc] at ha ⊢
      exact ih rm a ha
    · rw [gossipLoop, if_neg hc] at ha ⊢
      rcases List.mem_cons.1 ha with he | htail
      · subst he
        refine gossipLoop_cache_mono h rest _ a ?_
        rw [peerCache_cons, if_pos rfl]
        exact List.mem_cons_self _ _
      · exact ih _ a htail

theorem gossipLoop_sent_nodup (h : Nat) (ps : List Address) :
    ∀ rm, (gossipLoop h ps rm).2.Nodup := by
  induction ps with
  | nil => intro rm; simp [gossipLoop]
  | cons addr rest ih =>
    intro rm
    by_cases hc : h ∈ peerCache rm addr
    · rw [gossipLoop, if_pos hc]
      exact ih rm
    · rw [gossipLoop, if_neg hc]
      refine List.nodup_cons.2 ⟨?_, ih _⟩
      refine gossipLoop_skip h rest _ addr ?_
      rw [peerCache_cons, if_pos rfl]
      exact List.mem_cons_self _ _

theorem mem_findPeers (connected targets : List Address) (a : Address) :
    a ∈ findPeers connected targets ↔ a ∈ connected ∧ a ∈ targets := by
  simp [findPeers, List.mem_filter]

theorem askSyncLoop_subset (q : Nat) (ps : List Address) :
    ∀ c, ∀ a ∈ askSyncLoop q c ps, a ∈ ps := by
  induction ps with
  | nil => intro c a ha; simp [askSyncLoop] at ha
  | cons p rest ih =>
    intro c a ha
    by_cases hc : c = q
    · rw [askSyncLoop, if_pos hc] at ha
      exact absurd ha (List.not_mem_nil a)
    · rw [askSyncLoop, if_neg hc] at ha
      rcases List.mem_cons.1 ha with he | htail
      · exact he ▸ List.mem_cons_self _ _
      · exact List.mem_cons_of_mem _ (ih (c + 1) a htail)

theorem askSyncLoop_length (q : Nat) (ps : List Address) :
    ∀ c, c ≤ q → (askSyncLoop q c ps).length ≤ q - c := by
  induction ps with
  | nil => intro c _; simp [askSyncLoop]
  | cons p rest ih =>
    intro c hle
    by_cases hc : c = q
    · rw [askSyncLoop, if_pos hc]
      simp
    · rw [askSyncLoop, if_neg hc]
      have hlt : c < q := lt_of_le_of_ne hle hc
      have := ih (c + 1) hlt
      simp only [List.length_cons]
      omega

/-! Claim theorems. -/

/-- C1, counterexample: the round-skip counter of `handleCheckedMsg` does
not track distinct senders.  With f = 1, two future-round messages for
round 2 from the same sender 7 cross the threshold: the first call makes no
`startRound` call, the second call — from the very same sender, so only one
distinct sender has been seen — immediately calls `startRound(2)`, although
the claim requires strictly more than f distinct senders. -/
theorem roundSkip_same_sender_counterexample :
    (handleCheckedMsg 1 (fun _ => some CoreError.errFutureRoundMessage)
        (fun _ => 0) ⟨msgPrevote, some 2, some [9]⟩ 7).2.1.started = [] ∧
    (handleCheckedMsg 1 (fun _ => some CoreError.errFutureRoundMessage)
        (handleCheckedMsg 1 (fun _ => some CoreError.errFutureRoundMessage)
            (fun _ => 0) ⟨msgPrevote, some 2, some [9]⟩ 7).1
        ⟨msgPrevote, some 2, some [9]⟩ 7).2.1.started = [2] := by
  exact ⟨rfl, rfl⟩

/-- C1, amended: for every message dispatched to a proposal/prevote/precommit
handler that classifies it as future-round, with the message's payload
decoding to round r, the core increments `futureRoundsChange[r]` by one —
counting every such message, with no regard to sender distinctness — and
calls `startRound(r)` exactly when the incremented count strictly exceeds f;
the classification error is returned to the caller. -/
theorem handleCheckedMsg_roundSkip_amended (f : Nat)
    (oracle : Message → Option CoreError) (frc : Int → Int) (msg : Message)
    (sender : Address) (r : Int)
    (hcode : msg.code = msgProposal ∨ msg.code = msgPrevote ∨ msg.code = msgPrecommit)
    (horacle : oracle msg = some CoreError.errFutureRoundMessage)
    (hdec : msg.decodedRound = some r) :
    (handleCheckedMsg f oracle frc msg sender).1 r = frc r + 1 ∧
    (handleCheckedMsg f oracle frc msg sender).2.2 =
      some CoreError.errFutureRoundMessage ∧
    (handleCheckedMsg f oracle frc msg sender).2.1.started =
      (if frc r + 1 > (f : Int) then [r] else []) := by
  unfold handleCheckedMsg
  rw [if_pos hcode, horacle]
  unfold testBacklog
  simp only [hdec]
  norm_num
  by_cases hlt : ((f : Int) < frc r + 1) <;> simp [hlt]

/-- C1, amended claim exercised at a concrete input: with f = 1 and the
counter for round 2 already at 1, a further future-round message for round 2
bumps the counter to 2 and triggers `startRound(2)`. -/
theorem handleCheckedMsg_roundSkip_amended_witness :
    (handleCheckedMsg 1 (fun _ => some CoreError.errFutureRoundMessage)
        (fun r => if r = 2 then 1 else 0) ⟨msgPrevote, some 2, some [9]⟩ 4).1 2 =
      (if (2 : Int) = 2 then 1 else 0) + 1 ∧
    (handleCheckedMsg 1 (fun _ => some CoreError.errFutureRoundMessage)
        (fun r => if r = 2 then 1 else 0) ⟨msgPrevote, some 2, some [9]⟩ 4).2.1.started =
      (if (if (2 : Int) = 2 then (1 : Int) else 0) + 1 > ((1 : Nat) : Int)
        then [(2 : Int)] else []) :=
  ⟨(handleCheckedMsg_roundSkip_amended 1 _ _ _ 4 2 (Or.inr (Or.inl rfl)) rfl rfl).1,
   (handleCheckedMsg_roundSkip_amended 1 _ _ _ 4 2 (Or.inr (Or.inl rfl)) rfl rfl).2.2⟩

/-- C2: a message classified future-height, future-round or future-step by
its handler is parked in the backlog together with its sender, the
classification error is returned to the caller, and exactly the future-round
case additionally increments the round-skip counter for the message's
decoded round (the two other cases leave the counter map untouched).  The
hypothesis hdec reflects spec section 4.1 — the handlers, which are outside
the extracted sources, classify a message only after it decoded
successfully. -/
theorem futureMsg_backlogged (f : Nat) (oracle : Message → Option CoreError)
    (frc : Int → Int) (msg : Message) (sender : Address)
    (hcode : msg.code = msgProposal ∨ msg.code = msgPrevote ∨ msg.code = msgPrecommit)
    (hfut : oracle msg = some CoreError.errFutureHeightMessage ∨
            oracle msg = some CoreError.errFutureRoundMessage ∨
            oracle msg = some CoreError.errFutureStepMessage)
    (hdec : oracle msg = some CoreError.errFutureRoundMessage →
            (msg.decodedRound).isSome = true) :
    (handleCheckedMsg f oracle frc msg sender).2.1.stored = [(msg, sender)] ∧
    (handleCheckedMsg f oracle frc msg sender).2.2 = oracle msg ∧
    ((oracle msg = some CoreError.errFutureHeightMessage ∨
      oracle msg = some CoreError.errFutureStepMessage) →
        (handleCheckedMsg f oracle frc msg sender).1 = frc) ∧
    (oracle msg = some CoreError.errFutureRoundMessage →
        ∃ r, msg.decodedRound = some r ∧
          (handleCheckedMsg f oracle frc msg sender).1 r = frc r + 1 ∧
          ∀ x, x ≠ r → (handleCheckedMsg f oracle frc msg sender).1 x = frc x) := by
  unfold handleCheckedMsg
  rw [if_pos hcode]
  rcases hfut with hf | hf | hf
  · rw [hf]; unfold testBacklog; simp
  · obtain ⟨r, hr⟩ := Option.isSome_iff_exists.1 (hdec hf)
    rw [hf]; unfold testBacklog
    simp only [hr, reduceCtorEq, Option.some.injEq, reduceIte]
    refine ⟨?_, ?_, ?_, ?_⟩
    · split <;> rfl
    · split <;> rfl
    · rintro (hcontra | hcontra) <;> exact absurd hcontra (by decide)
    · intro _
      refine ⟨r, rfl, ?_, ?_⟩
      · split <;> simp
      · intro x hx
        split <;> simp [hx]
  · rw [hf]; unfold testBacklog; simp

/-- C2 exercised at a concrete input: a future-step prevote from sender 3 is
stored in the backlog with its sender. -/
theorem futureMsg_backlogged_witness :
    (handleCheckedMsg 1 (fun _ => some CoreError.errFutureStepMessage)
        (fun _ => 0) ⟨msgPrevote, some 0, some []⟩ 3).2.1.stored =
      [(⟨msgPrevote, some 0, some []⟩, 3)] :=
  (futureMsg_backlogged 1 (fun _ => some CoreError.errFutureStepMessage)
    (fun _ => 0) ⟨msgPrevote, some 0, some []⟩ 3 (Or.inr (Or.inl rfl))
    (Or.inr (Or.inr rfl)) (fun hco => absurd hco (by decide))).1

/-- C3: a payload that fails decode or signature verification in `handleMsg`
is dropped with a decode error — the counter map is unchanged, nothing is
stored in the backlog and no `startRound` is called; likewise a checked
message whose code is none of proposal/prevote/precommit is dropped by
`handleCheckedMsg` with `errInvalidMessage`, with no backlog store and no
state change, whatever the inner handlers would say. -/
theorem invalid_dropped_not_backlogged (f : Nat)
    (oracle : Message → Option CoreError) (valSet : List Address)
    (frc : Int → Int) (bs : List Nat) (msg : Message) (sender : Address)
    (hcode : ¬ (msg.code = msgProposal ∨ msg.code = msgPrevote ∨
                msg.code = msgPrecommit)) :
    handleMsg f oracle valSet frc ⟨none, bs⟩ =
      (frc, Effects.empty, some CoreError.errFailedDecodeMessage) ∧
    handleCheckedMsg f oracle frc msg sender =
      (frc, Effects.empty, some CoreError.errInvalidMessage) := by
  constructor
  · rfl
  · unfold handleCheckedMsg
    rw [if_neg hcode]

/-- C3 exercised at a concrete input: a checked message with code 5 is
dropped with `errInvalidMessage` and empty effects. -/
theorem invalid_dropped_not_backlogged_witness :
    handleCheckedMsg 0 (fun _ => none) (fun _ => (0 : Int)) ⟨5, none, none⟩ 2 =
      ((fun _ => (0 : Int)), Effects.empty, some CoreError.errInvalidMessage) :=
  (invalid_dropped_not_backlogged 0 (fun _ => none) [] (fun _ => (0 : Int)) []
    ⟨5, none, none⟩ 2 (by decide)).2

/-- C4: `handleMsg` hands a message over for further processing only when
the payload decodes successfully and the recovered sender is a member of the
validator set; on a decode failure or a non-member sender, `fromPayload`
yields an error, which `handleMsg` returns with no processing — the counter
map is returned unchanged and no effectful call is made. -/
theorem handleMsg_gate (f : Nat) (oracle : Message → Option CoreError)
    (valSet : List Address) (frc : Int → Int) (p : Payload) :
    (∀ msg sender, fromPayload valSet p = Except.ok (msg, sender) →
        p.decoded = some (msg, sender) ∧ sender ∈ valSet ∧
        handleMsg f oracle valSet frc p = handleCheckedMsg f oracle frc msg sender) ∧
    (∀ e, fromPayload valSet p = Except.error e →
        handleMsg f oracle valSet frc p = (frc, Effects.empty, some e)) ∧
    (p.decoded = none →
        fromPayload valSet p = Except.error CoreError.errFailedDecodeMessage) ∧
    (∀ msg sender, p.decoded = some (msg, sender) → sender ∉ valSet →
        fromPayload valSet p = Except.error CoreError.errNotFromCommittee) := by
  refine ⟨?_, ?_, ?_, ?_⟩
  · intro msg sender hok
    match hd : p.decoded with
    | none => simp [fromPayload, hd] at hok
    | some (m, s) =>
      by_cases hmem : s ∈ valSet
      · simp only [fromPayload, hd, if_pos hmem, Except.ok.injEq,
          Prod.mk.injEq] at hok
        obtain ⟨hm, hs⟩ := hok
        subst hm; subst hs
        refine ⟨rfl, hmem, ?_⟩
        simp [handleMsg, fromPayload, hd, hmem]
      · simp [fromPayload, hd, hmem] at hok
  · intro e herr
    unfold handleMsg
    rw [herr]
  · intro hd
    simp [fromPayload, hd]
  · intro msg sender hd hmem
    simp [fromPayload, hd, hmem]

/-- C4 exercised at a concrete input: a payload whose recovered sender 9 is
not in the validator set is rejected with `errNotFromCommittee`. -/
theorem handleMsg_gate_witness :
    fromPayload [1, 2, 3] ⟨some (⟨msgPrevote, some 0, some []⟩, 9), []⟩ =
      Except.error CoreError.errNotFromCommittee :=
  (handleMsg_gate 0 (fun _ => none) [1, 2, 3] (fun _ => 0)
    ⟨some (⟨msgPrevote, some 0, some []⟩, 9), []⟩).2.2.2
    ⟨msgPrevote, some 0, some []⟩ 9 rfl (by decide)

/-- C5: Start and Stop are idempotent.  A `Start` call finding `isStarted`
set, or finding `isStarting` set because another start is in progress,
returns nil at once with the flags unchanged and makes none of the start
actions (no backend start, no event subscription, no round-state reset, no
goroutine spawn); symmetrically a `Stop` call finding `isStopped` or
`isStopping` set returns nil at once with no stop action (no timer stop, no
driver cancellation, no backend close). -/
theorem start_stop_idempotent (s : Flags) (e e' : Option Nat) (n : Nat) :
    ((s.isStarted = true ∨ s.isStarting = true) → Start s e n = (s, [], none)) ∧
    ((s.isStopped = true ∨ s.isStopping = true) → Stop s e' = (s, [], none)) := by
  obtain ⟨b1, b2, b3, b4⟩ := s
  constructor
  · rintro (hb | hb) <;> simp_all [Start]
  · rintro (hb | hb) <;> simp_all [Stop]

/-- C5 exercised at a concrete input: a second Start on a started core and a
second Stop on a stopped core are no-ops returning nil. -/
theorem start_stop_idempotent_witness :
    Start ⟨true, false, false, false⟩ none 9 =
      (⟨true, false, false, false⟩, [], none) ∧
    Stop ⟨false, false, true, false⟩ (some 3) =
      (⟨false, false, true, false⟩, [], none) :=
  ⟨(start_stop_idempotent ⟨true, false, false, false⟩ none (some 3) 9).1
      (Or.inl rfl),
   (start_stop_idempotent ⟨false, false, true, false⟩ none (some 3) 9).2
      (Or.inl rfl)⟩

/-- C6: every successful Start performs exactly one round-state
initialization, `Update(0, lastCommittedNumber + 1)` — round 0 at the height
one past the last committed block, computed from that block alone, with no
other state restored — and the first action of the consensus driver is
`startRound(0)`, whatever events follow. -/
theorem start_initializes_round_zero (s : Flags) (n : Nat) (evs : List CoreEvent)
    (f : Nat) (oracle : Message → Option CoreError) (valSet : List Address)
    (frc : Int → Int) (h1 : s.isStarted = false) (h2 : s.isStarting = false) :
    Start s none n =
      (⟨true, false, false, s.isStopping⟩,
       [StartAction.backendStart, StartAction.subscribeEvents,
        StartAction.updateRoundState 0 (n + 1),
        StartAction.goHandleNewUnminedBlockEvent,
        StartAction.goHandleConsensusEvents,
        StartAction.goHandleUnhandledMsgs], none) ∧
    List.head? (handleConsensusEvents f oracle valSet frc evs) =
      some (DriverAction.startRound 0) := by
  constructor
  · simp [Start, h1, h2]
  · rfl

/-- C6 exercised at a concrete input: starting from all-stopped flags at
last committed block 4, the round state is set to round 0 of height 5 and
the driver's first action is `startRound(0)`. -/
theorem start_initializes_round_zero_witness :
    Start ⟨false, false, true, false⟩ none 4 =
      (⟨true, false, false, false⟩,
       [StartAction.backendStart, StartAction.subscribeEvents,
        StartAction.updateRoundState 0 5,
        StartAction.goHandleNewUnminedBlockEvent,
        StartAction.goHandleConsensusEvents,
        StartAction.goHandleUnhandledMsgs], none) ∧
    List.head? (handleConsensusEvents 0 (fun _ => none) [] (fun _ => 0) []) =
      some (DriverAction.startRound 0) :=
  start_initializes_round_zero ⟨false, false, true, false⟩ 4 [] 0
    (fun _ => none) [] (fun _ => 0) rfl rfl

/-- C7, counterexample: on a successful seal write, when the block hash does
not match the node's proposed hash and no broadcaster is registered, `Commit`
delivers the block nowhere and still returns nil — not "exactly once" as the
claim states. -/
theorem commit_no_broadcaster_counterexample :
    (Commit ⟨1, true, false⟩ (Except.ok ⟨[[65]]⟩) ⟨3, 2, ⟨[]⟩⟩).1.length = 0 ∧
    (Commit ⟨1, true, false⟩ (Except.ok ⟨[[65]]⟩) ⟨3, 2, ⟨[]⟩⟩).2 = none := by
  exact ⟨rfl, rfl⟩

/-- C7, amended: the committed seals are written into the block's header
before any delivery — every delivered block carries the re-sealed header; if
writing the seals fails, Commit returns that error and delivers nothing; on
success Commit returns nil and the re-sealed block goes to the Seal result
channel when its hash equals the node's proposed block hash and that channel
is live, otherwise to the broadcaster's fetcher queue when a broadcaster is
registered, and — the amendment — nowhere at all when the hash does not
route it to the result channel and no broadcaster is registered. -/
theorem commit_amended (sb : BackendState) (e : Nat) (h : Header) (block : Block) :
    Commit sb (Except.error e) block = ([], some e) ∧
    (sb.proposedBlockHash = block.hash → sb.resultChanLive = true →
      Commit sb (Except.ok h) block =
        ([CommitDelivery.toResultChan { block with header := h }], none)) ∧
    (¬ (sb.proposedBlockHash = block.hash ∧ sb.resultChanLive = true) →
      sb.broadcasterPresent = true →
      Commit sb (Except.ok h) block =
        ([CommitDelivery.toFetcher { block with header := h }], none)) ∧
    (¬ (sb.proposedBlockHash = block.hash ∧ sb.resultChanLive = true) →
      sb.broadcasterPresent = false →
      Commit sb (Except.ok h) block = ([], none)) := by
  refine ⟨rfl, ?_, ?_, ?_⟩
  · intro hh hl
    simp [Commit, hh, hl]
  · intro hn hb
    simp only [Commit]
    rw [if_neg (by simpa using hn), if_pos hb]
  · intro hn hb
    simp only [Commit]
    rw [if_neg (by simpa using hn), if_neg (by simp [hb])]

/-- C7, amended claim exercised at a concrete input: a matching proposed
hash with a live result channel delivers the re-sealed block to the result
channel and returns nil. -/
theorem commit_amended_witness :
    Commit ⟨2, true, true⟩ (Except.ok ⟨[[65]]⟩) ⟨3, 2, ⟨[]⟩⟩ =
      ([CommitDelivery.toResultChan ⟨3, 2, ⟨[[65]]⟩⟩], none) :=
  (commit_amended ⟨2, true, true⟩ 0 ⟨[[65]]⟩ ⟨3, 2, ⟨[]⟩⟩).2.1 rfl rfl

/-- C8: in the consensus event loop, a wire message's raw payload is
re-gossiped to the validator set exactly when `handleMsg` returned nil — in
particular a message classified future (non-nil error) is not gossiped at
first receipt — and a backlogged message re-processed with a nil
`handleCheckedMsg` result is gossiped, using its serialized payload when
`msg.Payload()` succeeds. -/
theorem gossip_iff_handled (f : Nat) (oracle : Message → Option CoreError)
    (valSet : List Address) (frc : Int → Int) (p : Payload) (msg : Message)
    (src : Address) :
    (DriverAction.gossip p.bytes ∈
        (consensusStep f oracle valSet frc (CoreEvent.messageEvent p)).2 ↔
      (handleMsg f oracle valSet frc p).2.2 = none) ∧
    ((handleCheckedMsg f oracle frc msg src).2.2 ≠ none →
      ∀ bs, DriverAction.gossip bs ∉
        (consensusStep f oracle valSet frc (CoreEvent.backlogEvent msg src)).2) ∧
    ((handleCheckedMsg f oracle frc msg src).2.2 = none →
      ∀ pl, msg.payload = some pl →
        DriverAction.gossip pl ∈
          (consensusStep f oracle valSet frc (CoreEvent.backlogEvent msg src)).2) := by
  refine ⟨?_, ?_, ?_⟩
  · by_cases herr : (handleMsg f oracle valSet frc p).2.2 = none <;>
      simp [consensusStep, herr]
  · intro herr bs
    rcases he : (handleCheckedMsg f oracle frc msg src).2.2 with _ | er
    · exact absurd he herr
    · rcases hp : msg.payload with _ | pl <;>
        simp [consensusStep, he, hp]
  · intro herr pl hp
    simp [consensusStep, herr, hp]

/-- C8 exercised at a concrete input: a payload from validator 1 whose
handler accepts it (nil error) is gossiped by the event loop. -/
theorem gossip_iff_handled_witness :
    DriverAction.gossip [5] ∈
      (consensusStep 0 (fun _ => none) [1] (fun _ => 0)
        (CoreEvent.messageEvent ⟨some (⟨msgPrevote, some 0, some []⟩, 1), [5]⟩)).2 :=
  (gossip_iff_handled 0 (fun _ => none) [1] (fun _ => 0)
      ⟨some (⟨msgPrevote, some 0, some []⟩, 1), [5]⟩
      ⟨msgPrevote, some 0, some []⟩ 1).1.mpr rfl

/-- C9: Gossip never sends to the node's own address; it records the
payload hash in the known-messages cache; a peer whose per-peer cache
already holds the hash is skipped; every peer actually sent to ends with
the hash recorded in its per-peer cache; and no peer is sent the payload
twice in one call. -/
theorem gossip_cache_props (self : Address) (valSet connected : List Address)
    (bp : Bool) (st : GossipCaches) (h : Nat) :
    self ∉ (Gossip self valSet connected bp st h).2 ∧
    h ∈ (Gossip self valSet connected bp st h).1.knownMessages ∧
    (∀ a, h ∈ peerCache st.recentMessages a →
      a ∉ (Gossip self valSet connected bp st h).2) ∧
    (∀ a ∈ (Gossip self valSet connected bp st h).2,
      h ∈ peerCache (Gossip self valSet connected bp st h).1.recentMessages a) ∧
    ((Gossip self valSet connected bp st h).2).Nodup := by
  unfold Gossip
  by_cases hg : bp = true ∧ valSet.filter (fun a => decide (¬ a = self)) ≠ []
  · rw [if_pos hg]
    dsimp only
    refine ⟨?_, List.mem_cons_self _ _, ?_, ?_, ?_⟩
    · intro hmem
      have hsub := gossipLoop_sent_subset h
        (findPeers connected (valSet.filter (fun a => decide (¬ a = self))))
        st.recentMessages self hmem
      have hz := ((mem_findPeers connected _ self).1 hsub).2
      simp [List.mem_filter] at hz
    · intro a hmem
      exact gossipLoop_skip h _ st.recentMessages a hmem
    · intro a hmem
      exact gossipLoop_sent_cached h _ st.recentMessages a hmem
    · exact gossipLoop_sent_nodup h _ st.recentMessages
  · rw [if_neg hg]
    exact ⟨by simp, List.mem_cons_self _ _, by simp, by simp, by simp⟩

/-- C9 exercised at a concrete input: node 0 gossiping payload hash 7 to
validators 1 and 2 does not send to peer 1, whose cache already holds hash
7, and records 7 in the known-messages cache. -/
theorem gossip_cache_props_witness :
    (1 : Nat) ∉ (Gossip 0 [0, 1, 2] [1, 2] true ⟨[], [(1, [7])]⟩ 7).2 ∧
    7 ∈ (Gossip 0 [0, 1, 2] [1, 2] true ⟨[], [(1, [7])]⟩ 7).1.knownMessages :=
  ⟨(gossip_cache_props 0 [0, 1, 2] [1, 2] true ⟨[], [(1, [7])]⟩ 7).2.2.1 1
      (by decide),
   (gossip_cache_props 0 [0, 1, 2] [1, 2] true ⟨[], [(1, [7])]⟩ 7).2.1⟩

/-- C10: AskSync sends the sync request only to connected peers found for
the validator set other than the node itself, to at most `Quorum()` of them,
and sends nothing when the broadcaster is absent or no peer is connected. -/
theorem askSync_props (self : Address) (valSet : List Address) (q : Nat)
    (connected : List Address) (bp : Bool) :
    self ∉ AskSync self valSet q connected bp ∧
    (AskSync self valSet q connected bp).length ≤ q ∧
    (∀ a ∈ AskSync self valSet q connected bp,
      a ∈ findPeers connected (valSet.filter (fun x => decide (¬ x = self)))) ∧
    (bp = false → AskSync self valSet q connected bp = []) ∧
    (connected = [] → AskSync self valSet q connected bp = []) := by
  unfold AskSync
  by_cases hg : bp = true ∧ valSet.filter (fun a => decide (¬ a = self)) ≠ []
  · rw [if_pos hg]
    refine ⟨?_, ?_, ?_, ?_, ?_⟩
    · intro hmem
      have hsub := askSyncLoop_subset q _ 0 self hmem
      have hz := ((mem_findPeers connected _ self).1 hsub).2
      simp [List.mem_filter] at hz
    · simpa using askSyncLoop_length q _ 0 (Nat.zero_le q)
    · intro a ha
      exact askSyncLoop_subset q _ 0 a ha
    · intro hb
      exact absurd hg.1 (by simp [hb])
    · intro hcon
      subst hcon
      simp [findPeers, askSyncLoop]
  · rw [if_neg hg]
    exact ⟨by simp, by simp, by simp, fun _ => rfl, fun _ => rfl⟩

/-- C10 exercised at a concrete input: node 0 with validators 1, 2, 3, all
connected, and quorum 2 contacts at most two peers, none of them itself,
and contacts nobody when the broadcaster is absent. -/
theorem askSync_props_witness :
    (0 : Nat) ∉ AskSync 0 [0, 1, 2, 3] 2 [1, 2, 3] true ∧
    (AskSync 0 [0, 1, 2, 3] 2 [1, 2, 3] true).length ≤ 2 ∧
    AskSync 0 [0, 1, 2, 3] 2 [1, 2, 3] false = [] :=
  ⟨(askSync_props 0 [0, 1, 2, 3] 2 [1, 2, 3] true).1,
   (askSync_props 0 [0, 1, 2, 3] 2 [1, 2, 3] true).2.1,
   (askSync_props 0 [0, 1, 2, 3] 2 [1, 2, 3] false).2.2.2.1 rfl⟩

end Autonity
